import Mathlib

/-!
Verification of the egotransfer hand-to-robot pipeline.

Shallow Lean embedding of the two core source files:
  backend/video_hand_processor.py  (RobotPositionConverter: coordinate mapping,
    gripper inference, smoothing, movement filtering, command persistence)
  backend/robot_playback_controller.py  (RobotPlaybackController: sequential
    command playback with pause/resume/stop and actuator-fault handling)
plus the live per-frame mapping of backend/Hand_to_robot.py
  (WristXYZController.map_wrist_to_xyz).

Python floats are modelled as rationals; the square root applied to a hand
span or a 3D displacement is handled either by parameterizing over an
arbitrary square-root function (where the value feeds a field irrelevant to
the claim) or by an exact square-free reformulation of the comparison
(where only an order comparison against a threshold is performed, which is
equivalent because the square root is monotone and both sides of the
transformed comparison are nonnegative).
-/

set_option maxRecDepth 4096

namespace Ego

attribute [local semireducible] Rat.mul Rat.inv Rat.add Rat.sub Rat.ofScientific

/-- MediaPipe landmark: normalized x, y, relative depth z, and visibility.
The integer id of the Python dict is positional (index in the 21-element
list) and therefore implicit here. -/
structure Landmark where
  x : ℚ
  y : ℚ
  z : ℚ
  visibility : ℚ
  deriving DecidableEq

/-- One frame of the tracking-data JSON consumed by the Converter
(video_hand_processor.HandFrame as serialized).  A missing hand
(Python None) and an empty landmark list are both falsy in the source
(`frame.get('left_hand')`), so both are modelled by the empty list. -/
structure HandFrame where
  frame_number : ℤ
  timestamp : ℚ
  left_hand : List Landmark
  right_hand : List Landmark
  deriving DecidableEq

/-- One robot command dict as emitted by
RobotPositionConverter.convert_to_robot_commands. -/
structure Cmd where
  frame : ℤ
  timestamp : ℚ
  x : ℚ
  y : ℚ
  z : ℚ
  r : ℚ
  gripper : ℤ
  confidence : ℚ
  deriving DecidableEq

/-- Workspace bounds of RobotPositionConverter.__init__ . -/
structure Conv where
  x_min : ℚ
  x_max : ℚ
  y_min : ℚ
  y_max : ℚ
  z_min : ℚ
  z_max : ℚ
  deriving DecidableEq

/-- The default workspace x_range=(200, 300), y_range=(-100, 100),
z_range=(50, 250). -/
def defaultConv : Conv := ⟨200, 300, -100, 100, 50, 250⟩

/-- Two-point np.interp: np.interp(x, [a, b], [y0, y1]) for a < b.
Inputs below a clamp to y0, above b clamp to y1, linear in between. -/
def interp (x a b y0 y1 : ℚ) : ℚ :=
  if x ≤ a then y0
  else if b ≤ x then y1
  else y0 + (x - a) * (y1 - y0) / (b - a)

/-- Round half to even on ℚ (the tie rule of Python's builtin round). -/
def rhalfEven (q : ℚ) : ℤ :=
  if q - ⌊q⌋ = 1 / 2 then (if 2 ∣ ⌊q⌋ then ⌊q⌋ else ⌊q⌋ + 1) else round q

/-- Python round(q, 2): round to two decimal places, ties to even. -/
def round2 (q : ℚ) : ℚ := (rhalfEven (100 * q) : ℚ) / 100

/-- Landmark list indexing with a default, standing for the guarded accesses
inside _calculate_hand_openness (guarded there by the length check). -/
def lmD (l : List Landmark) (i : ℕ) : Landmark := l.getD i ⟨0, 0, 0, 1⟩

/-- RobotPositionConverter._calculate_hand_openness (identical to
WristXYZController.calculate_hand_openness composed with is_hand_open):
with fewer than 21 landmarks returns False; otherwise counts extended
fingers (thumb: tip.x > mcp.x; other four: tip.y < pip.y) and reports the
hand open iff extended / 5.0 > 0.6 . -/
def calculate_hand_openness (hand_data : List Landmark) : Bool :=
  if hand_data.length < 21 then false
  else
    let thumb_tip := lmD hand_data 4
    let thumb_mcp := lmD hand_data 2
    let index_tip := lmD hand_data 8
    let index_pip := lmD hand_data 6
    let middle_tip := lmD hand_data 12
    let middle_pip := lmD hand_data 10
    let ring_tip := lmD hand_data 16
    let ring_pip := lmD hand_data 14
    let pinky_tip := lmD hand_data 20
    let pinky_pip := lmD hand_data 18
    let extended_fingers : ℕ :=
      (if thumb_tip.x > thumb_mcp.x then 1 else 0) +
      (if index_tip.y < index_pip.y then 1 else 0) +
      (if middle_tip.y < middle_pip.y then 1 else 0) +
      (if ring_tip.y < ring_pip.y then 1 else 0) +
      (if pinky_tip.y < pinky_pip.y then 1 else 0)
    decide ((extended_fingers : ℚ) / 5 > 6 / 10)

/-- The span-to-robot-x map of convert_to_robot_commands (line 515):
np.interp(hand_span, [0.08, 0.25], [x_max, x_min]). -/
def robot_x_of_span (conv : Conv) (span : ℚ) : ℚ :=
  interp span (8 / 100) (25 / 100) conv.x_max conv.x_min

/-- Python exception raised by out-of-range list indexing. -/
inductive PyError where
  | indexError
  deriving DecidableEq

/-- The target-hand string constants of the source. -/
def handLeft : String := "left"

def handRight : String := "right"

/-- Hand selection of convert_to_robot_commands lines 498-505: the chosen
hand's landmark list when the target hand is present and truthy, otherwise
the empty list (frame skipped). -/
def selectHand (target_hand : String) (frame : HandFrame) : List Landmark :=
  if target_hand = handLeft ∧ frame.left_hand ≠ [] then frame.left_hand
  else if target_hand = handRight ∧ frame.right_hand ≠ [] then frame.right_hand
  else []

/-- One loop iteration of RobotPositionConverter.convert_to_robot_commands:
returns none when the frame is skipped, an IndexError when the selected
hand list is nonempty but lacks index 0, 4, 20 or 8 (exactly the
unguarded accesses hand_data[0], hand_data[4], hand_data[20],
hand_data[8] of lines 508-525), and otherwise the emitted command.
The square-root function used for the hand span is a parameter. -/
def convertFrame (sq : ℚ → ℚ) (conv : Conv) (target_hand : String)
    (frame : HandFrame) : Except PyError (Option Cmd) :=
  let hand_data := selectHand target_hand frame
  if hand_data = [] then .ok none
  else
    match hand_data.get? 0, hand_data.get? 4, hand_data.get? 20,
        hand_data.get? 8 with
    | some wrist, some thumb_tip, some pinky_tip, some _index_tip =>
      let hand_span :=
        sq ((thumb_tip.x - pinky_tip.x) ^ 2 + (thumb_tip.y - pinky_tip.y) ^ 2)
      let robot_x := robot_x_of_span conv hand_span
      let robot_y := interp wrist.x 0 1 conv.y_min conv.y_max
      let robot_z := interp wrist.y 0 1 conv.z_max conv.z_min
      let gripper_open := calculate_hand_openness hand_data
      .ok (some
        { frame := frame.frame_number
          timestamp := frame.timestamp
          x := round2 robot_x
          y := round2 robot_y
          z := round2 robot_z
          r := 0
          gripper := if gripper_open then 1 else 0
          confidence := wrist.visibility })
    | _, _, _, _ => .error .indexError

/-- RobotPositionConverter.convert_to_robot_commands: the frame loop.  An
exception in any frame aborts the whole call (Python propagates it out of
the loop); skipped frames contribute no command. -/
def convert_to_robot_commands (sq : ℚ → ℚ) (conv : Conv)
    (target_hand : String) : List HandFrame → Except PyError (List Cmd)
  | [] => .ok []
  | f :: fs => do
    let c? ← convertFrame sq conv target_hand f
    let rest ← convert_to_robot_commands sq conv target_hand fs
    match c? with
    | none => .ok rest
    | some c => .ok (c :: rest)

/-- Shorthand landmark constructor with z = 0, visibility = 1. -/
def lm (x y : ℚ) : Landmark := ⟨x, y, 0, 1⟩

/-- Synthetic fully open right hand: thumb tip x (6/10) to the right of the
thumb MCP x (3/10), and every fingertip y (4/10) above the matching PIP y
(6/10) in image space, so all five extension predicates hold. -/
def openHand : List Landmark :=
  [lm (1/2) (1/2), lm (1/2) (1/2), lm (3/10) (1/2), lm (1/2) (1/2),
   lm (6/10) (1/2), lm (1/2) (1/2), lm (1/2) (6/10), lm (1/2) (1/2),
   lm (1/2) (4/10), lm (1/2) (1/2), lm (1/2) (6/10), lm (1/2) (1/2),
   lm (1/2) (4/10), lm (1/2) (1/2), lm (1/2) (6/10), lm (1/2) (1/2),
   lm (1/2) (4/10), lm (1/2) (1/2), lm (1/2) (6/10), lm (1/2) (1/2),
   lm (1/2) (4/10)]

/-- Synthetic closed fist: thumb tip x (3/10) is ≤ the thumb MCP x (6/10)
and every fingertip y (6/10) is below the matching PIP y (4/10), so no
extension predicate holds. -/
def fistHand : List Landmark :=
  [lm (1/2) (1/2), lm (1/2) (1/2), lm (6/10) (1/2), lm (1/2) (1/2),
   lm (3/10) (1/2), lm (1/2) (1/2), lm (1/2) (4/10), lm (1/2) (1/2),
   lm (1/2) (6/10), lm (1/2) (1/2), lm (1/2) (4/10), lm (1/2) (1/2),
   lm (1/2) (6/10), lm (1/2) (1/2), lm (1/2) (4/10), lm (1/2) (1/2),
   lm (1/2) (6/10), lm (1/2) (1/2), lm (1/2) (4/10), lm (1/2) (1/2),
   lm (1/2) (6/10)]

/-- Frame 0 with the open right hand. -/
def openFrame : HandFrame := ⟨0, 0, [], openHand⟩

/-- Frame 1 with the closed-fist right hand. -/
def fistFrame : HandFrame := ⟨1, 1/30, [], fistHand⟩

/-- A truncated detection: a right hand with only 5 of the 21 landmarks. -/
def shortHand : List Landmark :=
  [lm (1/2) (1/2), lm (1/2) (1/2), lm (3/10) (1/2), lm (1/2) (1/2),
   lm (6/10) (1/2)]

/-- Frame 0 whose right hand has fewer than 21 landmarks. -/
def shortFrame : HandFrame := ⟨0, 0, [], shortHand⟩

/-- Squared 3D Euclidean displacement between two commands. -/
def distSq (a b : Cmd) : ℚ := (b.x - a.x) ^ 2 + (b.y - a.y) ^ 2 + (b.z - a.z) ^ 2

/-- The source comparison np.sqrt(d) >= m (d a sum of squares, hence
nonnegative), rendered square-free: it holds for every nonpositive m, and
for positive m it is equivalent to m^2 ≤ d because the square root is
monotone. -/
def sqrtGe (d m : ℚ) : Bool := decide (m ≤ 0) || decide (m ^ 2 ≤ d)

/-- The strict comparison np.sqrt(d) > m, square-free in the same way
(used only by the claim-side reference filter below). -/
def sqrtGt (d m : ℚ) : Bool := decide (m < 0) || decide (m ^ 2 < d)

/-- The retain condition of filter_minimal_movement line 637:
`distance >= min_distance or cmd['gripper'] != last_cmd['gripper']`. -/
def keepCmd (min_distance : ℚ) (last_cmd cmd : Cmd) : Bool :=
  sqrtGe (distSq last_cmd cmd) min_distance ||
    decide (cmd.gripper ≠ last_cmd.gripper)

/-- One iteration of the filter loop: read last_cmd = filtered[-1] and
append cmd exactly when the retain condition holds.  The filtered
accumulator is nonempty throughout the source loop (seeded with the first
command); an empty accumulator is left unchanged. -/
def filterStep (min_distance : ℚ) (filtered : List Cmd) (cmd : Cmd) :
    List Cmd :=
  match filtered.getLast? with
  | none => filtered
  | some last_cmd =>
    if keepCmd min_distance last_cmd cmd then filtered ++ [cmd] else filtered

/-- RobotPositionConverter.filter_minimal_movement: empty input passes
through; otherwise the accumulator starts as [commands[0]] and the loop
runs over commands[1:]. -/
def filter_minimal_movement (commands : List Cmd) (min_distance : ℚ) :
    List Cmd :=
  match commands with
  | [] => []
  | c :: rest => rest.foldl (filterStep min_distance) [c]

/-- Reference walk over the tail, tracking the last retained command. -/
def filterWalk (keep : Cmd → Cmd → Bool) : Cmd → List Cmd → List Cmd
  | _, [] => []
  | last, c :: cs =>
    if keep last c then c :: filterWalk keep c cs else filterWalk keep last cs

/-- The spec's description of the movement filter with the comparison the
code actually performs (distance ≥ threshold): always retain the first
command, then retain a command iff its distance from the last retained
command is at least the threshold or its gripper state differs. -/
def filterSpecGe (commands : List Cmd) (min_distance : ℚ) : List Cmd :=
  match commands with
  | [] => []
  | c :: rest => c :: filterWalk (keepCmd min_distance) c rest

/-- Modelled from the claim's words: retain a command iff its distance
from the last retained command STRICTLY exceeds the threshold or its
gripper state differs (so a command at distance exactly the threshold
with unchanged gripper is dropped). -/
def keepClaim (min_distance : ℚ) (last_cmd cmd : Cmd) : Bool :=
  sqrtGt (distSq last_cmd cmd) min_distance ||
    decide (cmd.gripper ≠ last_cmd.gripper)

/-- The movement filter exactly as the claim words it (strict threshold). -/
def filterClaimed (commands : List Cmd) (min_distance : ℚ) : List Cmd :=
  match commands with
  | [] => []
  | c :: rest => c :: filterWalk (keepClaim min_distance) c rest

/-- A command at x-position p (in mm) with gripper state g, all other
fields fixed. -/
def cmdAt (p : ℚ) (g : ℤ) : Cmd := ⟨0, 0, p, 0, 0, 0, g, 1⟩

/-- Dummy command for the (never reached) out-of-range default of indexed
access inside the smoother. -/
def defaultCmd : Cmd := ⟨0, 0, 0, 0, 0, 0, 0, 0⟩

/-- RobotPositionConverter.smooth_commands: an input shorter than the
window passes through unchanged; otherwise each position i is replaced by
commands[i] with (x, y, z) set to the two-decimal rounding of the mean of
the centered window commands[max(0, i - w//2) : min(len, i + w//2 + 1)]
(ℕ subtraction realizes Python's max(0, ·)). -/
def smooth_commands (commands : List Cmd) (window_size : ℕ) : List Cmd :=
  if commands.length < window_size then commands
  else
    (List.range commands.length).map fun i =>
      let start_idx := i - window_size / 2
      let end_idx := min commands.length (i + window_size / 2 + 1)
      let window := (commands.drop start_idx).take (end_idx - start_idx)
      let n : ℚ := window.length
      let avg_x := (window.map Cmd.x).sum / n
      let avg_y := (window.map Cmd.y).sum / n
      let avg_z := (window.map Cmd.z).sum / n
      let c := commands.getD i defaultCmd
      { c with x := round2 avg_x, y := round2 avg_y, z := round2 avg_z }

/-- A command whose x-coordinate, 0.001, is not representable at two
decimal places. -/
def milCmd : Cmd := ⟨0, 0, 1 / 1000, 0, 0, 0, 0, 1⟩

/-- Actuator outcome of the move_to calls in _execute_command lines
227-236: the wait variant may succeed, raise TypeError (then the plain
variant may succeed or raise), or raise a non-TypeError actuator error
(caught by the outer handler of line 259). -/
inductive MoveBehavior where
  | ok
  | typeErrThenOk
  | typeErrThenErr
  | ioErr
  deriving DecidableEq

/-- Actuator outcome of the gripper calls in lines 239-252: grip(enable=…)
may succeed or raise; on failure the alternate grip(bool) may succeed or
raise.  When both raise, only a warning is logged. -/
inductive GripBehavior where
  | ok
  | errThenOk
  | errThenErr
  deriving DecidableEq

/-- Behavior of the actuator for one command execution. -/
structure CmdBehavior where
  move : MoveBehavior
  grip : GripBehavior
  deriving DecidableEq

/-- RobotPlaybackController._execute_command under a given actuator
behavior.  A move TypeError falls back to the plain call; a failing plain
call logs and returns False; a non-TypeError move error reaches the outer
handler and returns False.  Every gripper failure path merely logs
(warning) and execution continues, so the function returns True whenever
the move succeeded, regardless of the gripper outcome. -/
def execute_command (b : CmdBehavior) : Bool :=
  match b.move with
  | .ioErr => false
  | .typeErrThenErr => false
  | .ok | .typeErrThenOk =>
    match b.grip with
    | .ok => true
    | .errThenOk => true
    | .errThenErr => true

/-- Playback state: the RobotPlaybackController fields the play loop
touches (loaded commands, current index, is_paused, is_playing, the
play-call result once returned), plus the ordered trace of executed
command indices, the count of homing operations performed, and the
connection flag. -/
structure PState where
  cmds : List Cmd
  idx : ℕ
  paused : Bool
  playing : Bool
  executed : List ℕ
  result : Option Bool
  homings : ℕ
  connected : Bool
  deriving DecidableEq

/-- Events acting on the playback state: pause(), resume(), stop() from
the control channel, and one iteration (tick) of the play loop body.
Executing a command is a single atomic tick: the loop polls is_paused and
is_playing only BETWEEN commands, so an in-flight command always
completes before a pause can take effect. -/
inductive PEvent where
  | pause
  | resume
  | stop
  | tick
  deriving DecidableEq

/-- One transition.  pause/resume/stop only set flags (lines 263-277).  A
tick mirrors one iteration of play() lines 175-205 with loop=False: a
returned loop is inert; a cleared is_playing returns True; while paused
the inner wait loop spins; otherwise the command at the current index is
executed — on success the index advances, on failure is_playing is
cleared and play returns False; past the last command play returns
True. -/
def pstep (beh : ℕ → CmdBehavior) (s : PState) : PEvent → PState
  | .pause => { s with paused := true }
  | .resume => { s with paused := false }
  | .stop => { s with playing := false, paused := false }
  | .tick =>
    if s.result.isSome then s
    else if s.playing = false then { s with result := some true }
    else if s.paused = true then s
    else if s.idx < s.cmds.length then
      if execute_command (beh s.idx) then
        { s with idx := s.idx + 1, executed := s.executed ++ [s.idx] }
      else { s with playing := false, result := some false }
    else { s with playing := false, result := some true }

/-- State right after play() has homed once (mandatory, lines 166-169)
and set is_playing := True, is_paused := False, before the loop. -/
def playStart (cmds : List Cmd) : PState :=
  ⟨cmds, 0, false, true, [], none, 1, true⟩

/-- Run the play loop from the post-homing state under a list of events
interleaved by the scheduler. -/
def runPlay (beh : ℕ → CmdBehavior) (cmds : List Cmd)
    (evs : List PEvent) : PState :=
  evs.foldl (pstep beh) (playStart cmds)

/-- An actuator whose every move succeeds and whose gripper always raises
in both call shapes. -/
def behGripFail : ℕ → CmdBehavior := fun _ => ⟨.ok, .errThenErr⟩

/-- An actuator whose first command succeeds and whose second move raises
an actuator I/O error. -/
def behMoveFail : ℕ → CmdBehavior :=
  fun j => if j = 0 then ⟨.ok, .ok⟩ else ⟨.ioErr, .ok⟩

/-- A fully healthy actuator. -/
def behOk : ℕ → CmdBehavior := fun _ => ⟨.ok, .ok⟩

/-- The defensive clamp max(lo, min(hi, v)) of map_wrist_to_xyz lines
96-98. -/
def clampQ (lo hi v : ℚ) : ℚ := max lo (min hi v)

/-- The span-to-robot-x computation of WristXYZController.map_wrist_to_xyz
(Hand_to_robot.py lines 93 and 96): the same two-point interpolation as
the batch Converter, followed by the clamp to [x_min, x_max]. -/
def live_robot_x_of_span (conv : Conv) (span : ℚ) : ℚ :=
  clampQ conv.x_min conv.x_max
    (interp span (8 / 100) (25 / 100) conv.x_max conv.x_min)

/-- WristXYZController.map_wrist_to_xyz: clamp the wrist coordinates to
[0, 1], map wrist x over the camera bounds [0.15, 0.85] to
[y_min, y_max], wrist y to [z_max, z_min] (inverted), and the hand span
(square root of the squared thumb-tip/pinky-tip displacement, the square
root again a parameter) to [x_max, x_min]; clamp all three to the
workspace.  Landmarks 4 and 20 are accessed. -/
def map_wrist_to_xyz (sq : ℚ → ℚ) (conv : Conv) (wrist_x wrist_y : ℚ)
    (landmarks : List Landmark) : Option (ℚ × ℚ × ℚ) :=
  let wx := max 0 (min 1 wrist_x)
  let wy := max 0 (min 1 wrist_y)
  match landmarks.get? 4, landmarks.get? 20 with
  | some thumb_tip, some pinky_tip =>
    let robot_y := interp wx (15 / 100) (85 / 100) conv.y_min conv.y_max
    let robot_z := interp wy (15 / 100) (85 / 100) conv.z_max conv.z_min
    let hand_span :=
      sq ((thumb_tip.x - pinky_tip.x) ^ 2 + (thumb_tip.y - pinky_tip.y) ^ 2)
    some (live_robot_x_of_span conv hand_span,
      clampQ conv.y_min conv.y_max robot_y,
      clampQ conv.z_min conv.z_max robot_z)
  | _, _ => none

/-- JSON values as produced by Python's json module for the command file
(numbers kept exact: Python's float serialization uses the shortest
round-tripping decimal representation, so writing and re-reading a float
is value-preserving). -/
inductive Json where
  | jnum (q : ℚ)
  | jint (n : ℤ)
  | jstr (s : String)
  | jarr (elems : List Json)
  | jobj (fields : List (String × Json))

/-- First-match lookup of a key in a JSON object (dict keys are unique in
the files the code writes). -/
def lookupField : List (String × Json) → String → Option Json
  | [], _ => none
  | (k, v) :: rest, key => if k = key then some v else lookupField rest key

/-- Field keys of the persisted command record. -/
def kFrame : String := "frame"

def kTimestamp : String := "timestamp"

def kX : String := "x"

def kY : String := "y"

def kZ : String := "z"

def kR : String := "r"

def kGripper : String := "gripper"

def kConfidence : String := "confidence"

def kMetadata : String := "metadata"

def kCommands : String := "commands"

def kTotal : String := "total_commands"

def kWorkspace : String := "workspace"

def kXRange : String := "x_range"

def kYRange : String := "y_range"

def kZRange : String := "z_range"

def kGeneratedAt : String := "generated_at"

/-- The command dict of convert_to_robot_commands lines 531-540 as a JSON
object. -/
def encodeCmd (c : Cmd) : Json :=
  .jobj [(kFrame, .jint c.frame), (kTimestamp, .jnum c.timestamp),
    (kX, .jnum c.x), (kY, .jnum c.y), (kZ, .jnum c.z), (kR, .jnum c.r),
    (kGripper, .jint c.gripper), (kConfidence, .jnum c.confidence)]

/-- RobotPositionConverter.save_commands: the persisted structure with a
metadata block (total count, workspace bounds, generation time) and the
ordered command list. -/
def save_commands (conv : Conv) (generated_at : ℚ) (commands : List Cmd) :
    Json :=
  .jobj [
    (kMetadata, .jobj [
      (kTotal, .jint commands.length),
      (kWorkspace, .jobj [
        (kXRange, .jarr [.jnum conv.x_min, .jnum conv.x_max]),
        (kYRange, .jarr [.jnum conv.y_min, .jnum conv.y_max]),
        (kZRange, .jarr [.jnum conv.z_min, .jnum conv.z_max])]),
      (kGeneratedAt, .jnum generated_at)]),
    (kCommands, .jarr (commands.map encodeCmd))]

/-- RobotPlaybackController.load_commands lines 137-146: parse the file,
take data['commands'] when the key is present and otherwise the whole
document, yielding the raw list of command records. -/
def load_commands (data : Json) : Option (List Json) :=
  let raw :=
    match data with
    | .jobj fields =>
      match lookupField fields kCommands with
      | some v => v
      | none => data
    | _ => data
  match raw with
  | .jarr elems => some elems
  | _ => none

/-- Reading the numeric fields of one loaded command record back into a
command (the field accesses _execute_command and the spec's interchange
format perform). -/
def decodeCmd (j : Json) : Option Cmd :=
  match j with
  | .jobj fields =>
    match lookupField fields kFrame, lookupField fields kTimestamp,
        lookupField fields kX, lookupField fields kY,
        lookupField fields kZ, lookupField fields kR,
        lookupField fields kGripper, lookupField fields kConfidence with
    | some (.jint fr), some (.jnum ts), some (.jnum x), some (.jnum y),
        some (.jnum z), some (.jnum r), some (.jint g),
        some (.jnum conf) => some ⟨fr, ts, x, y, z, r, g, conf⟩
    | _, _, _, _, _, _, _, _ => none
  | _ => none

/-- C1: the code inverts the specified gripper convention.  The synthetic
open hand satisfies all five extension predicates (openness 1 > 0.6, hand
open) and the synthetic fist none of them (hand not open), yet for every
square-root function the batch Converter emits gripper = 1 for the open
hand and gripper = 0 for the fist — the claim requires gripper = 0 exactly
when the hand is open and 1 when it is not. -/
theorem c1_gripper_convention_inverted :
    calculate_hand_openness openHand = true ∧
    calculate_hand_openness fistHand = false ∧
    ∀ sq : ℚ → ℚ,
      (convert_to_robot_commands sq defaultConv handRight
          [openFrame, fistFrame]).map (List.map Cmd.gripper) = .ok [1, 0] := by
  refine ⟨by decide, by decide, fun sq => rfl⟩

/-- C3: a nonempty hand with fewer than 21 landmarks makes
convert_to_robot_commands raise an IndexError (the unguarded hand_data[4],
hand_data[20], hand_data[8] accesses) instead of skipping the frame, and
the raised error aborts the whole conversion, so later well-formed frames
are not processed either. -/
theorem c3_short_hand_raises :
    shortHand.length < 21 ∧ shortHand ≠ [] ∧
    ∀ sq : ℚ → ℚ,
      convert_to_robot_commands sq defaultConv handRight [shortFrame] =
          .error .indexError ∧
      convert_to_robot_commands sq defaultConv handRight
          [shortFrame, openFrame] = .error .indexError := by
  refine ⟨by decide, by decide, fun sq => ⟨rfl, rfl⟩⟩

theorem foldl_filterStep_eq_walk (m : ℚ) :
    ∀ (cs acc : List Cmd) (last : Cmd), acc.getLast? = some last →
      cs.foldl (filterStep m) acc = acc ++ filterWalk (keepCmd m) last cs := by
  intro cs
  induction cs with
  | nil => intro acc last _; simp [filterWalk]
  | cons c cs ih =>
    intro acc last h
    simp only [List.foldl_cons, filterStep, h, filterWalk]
    by_cases hk : keepCmd m last c
    · rw [if_pos hk, if_pos hk, ih (acc ++ [c]) c (by simp)]
      simp
    · rw [if_neg hk, if_neg hk, ih acc last h]

theorem filter_eq_walkGe (commands : List Cmd) (m : ℚ) :
    filter_minimal_movement commands m = filterSpecGe commands m := by
  cases commands with
  | nil => rfl
  | cons c rest =>
    simpa [filter_minimal_movement, filterSpecGe] using
      foldl_filterStep_eq_walk m rest [c] c rfl

theorem keepCmd_of_gripper_ne (m : ℚ) {last_cmd cmd : Cmd}
    (h : cmd.gripper ≠ last_cmd.gripper) : keepCmd m last_cmd cmd = true := by
  simp [keepCmd, h]

theorem gripper_eq_of_not_keepCmd (m : ℚ) {last_cmd cmd : Cmd}
    (h : ¬ keepCmd m last_cmd cmd = true) :
    cmd.gripper = last_cmd.gripper := by
  by_contra hne
  exact h (keepCmd_of_gripper_ne m hne)

theorem mem_filterWalk_of_gripper_ne (m : ℚ) :
    ∀ (l1 : List Cmd) (last a b : Cmd) (l2 : List Cmd),
      b.gripper ≠ a.gripper →
      b ∈ filterWalk (keepCmd m) last (l1 ++ a :: b :: l2) := by
  intro l1
  induction l1 with
  | nil =>
    intro last a b l2 hne
    simp only [List.nil_append, filterWalk]
    by_cases hk : keepCmd m last a
    · rw [if_pos hk]
      simp [filterWalk, keepCmd_of_gripper_ne m hne]
    · rw [if_neg hk]
      have hga : a.gripper = last.gripper := gripper_eq_of_not_keepCmd m hk
      have : keepCmd m last b = true :=
        keepCmd_of_gripper_ne m (by rw [← hga]; exact hne)
      simp [filterWalk, this]
  | cons x l1 ih =>
    intro last a b l2 hne
    simp only [List.cons_append, filterWalk]
    by_cases hk : keepCmd m last x
    · rw [if_pos hk]
      exact List.mem_cons_of_mem _ (ih x a b l2 hne)
    · rw [if_neg hk]
      exact ih last a b l2 hne

theorem filterWalk_nil_of_close (c0 : Cmd) :
    ∀ cs : List Cmd, (∀ c ∈ cs, distSq c0 c < 2 ^ 2) →
      (∀ c ∈ cs, c.gripper = c0.gripper) →
      filterWalk (keepCmd 2) c0 cs = [] := by
  intro cs
  induction cs with
  | nil => intro _ _; rfl
  | cons c cs ih =>
    intro hd hg
    have hk : keepCmd 2 c0 c = false := by
      have h1 : distSq c0 c < 2 ^ 2 := hd c (by simp)
      have h2 : c.gripper = c0.gripper := hg c (by simp)
      simp [keepCmd, sqrtGe, h2]
      exact h1
    simp only [filterWalk, hk, if_neg]
    exact ih (fun c hc => hd c (by simp [hc])) (fun c hc => hg c (by simp [hc]))

/-- C4: the claim states the distance test as strict (a command at
distance exactly the threshold with unchanged gripper is dropped), but
the code retains on `distance >= min_distance`.  At two commands exactly
2.0 mm apart with equal gripper, the code keeps both while the claim's
filter would keep only the first. -/
theorem c4_counterexample :
    distSq (cmdAt 0 0) (cmdAt 2 0) = 2 ^ 2 ∧
    (cmdAt 2 0).gripper = (cmdAt 0 0).gripper ∧
    filter_minimal_movement [cmdAt 0 0, cmdAt 2 0] 2 =
      [cmdAt 0 0, cmdAt 2 0] ∧
    filterClaimed [cmdAt 0 0, cmdAt 2 0] 2 = [cmdAt 0 0] := by
  refine ⟨by decide, by decide, by decide, by decide⟩

/-- C4 amended: filter_minimal_movement always retains the first command
and retains a subsequent command iff its 3D Euclidean distance from the
last retained command is GREATER THAN OR EQUAL TO the threshold or its
gripper state differs from the last retained command's; in particular a
command at distance exactly the threshold with unchanged gripper is
retained.  Stated as: the code's filter coincides with the reference
walk filterSpecGe that retains by that rule. -/
theorem c4_amended_filter_ge (commands : List Cmd) (min_distance : ℚ) :
    filter_minimal_movement commands min_distance =
      filterSpecGe commands min_distance :=
  filter_eq_walkGe commands min_distance

/-- C5: the second half of the claim fails: small per-step movements can
accumulate beyond the threshold measured from the last RETAINED command.
Three commands at x = 0, 1, 2 mm move exactly 1 mm per step (never more
than 1 mm) with constant gripper, yet the filter (threshold 2.0) retains
two commands, not exactly one. -/
theorem c5_counterexample :
    distSq (cmdAt 0 0) (cmdAt 1 0) = 1 ∧
    distSq (cmdAt 1 0) (cmdAt 2 0) = 1 ∧
    (cmdAt 1 0).gripper = (cmdAt 0 0).gripper ∧
    (cmdAt 2 0).gripper = (cmdAt 1 0).gripper ∧
    filter_minimal_movement [cmdAt 0 0, cmdAt 1 0, cmdAt 2 0] 2 =
      [cmdAt 0 0, cmdAt 2 0] ∧
    (filter_minimal_movement [cmdAt 0 0, cmdAt 1 0, cmdAt 2 0] 2).length ≠
      1 := by
  refine ⟨by decide, by decide, by decide, by decide, by decide, by decide⟩

/-- C5 amended: (1) the filter never drops a command whose gripper state
differs from the immediately preceding command's gripper state, and (2) a
sequence all of whose later commands stay strictly within the threshold
distance (2 mm) of the FIRST command, with gripper never changing,
collapses to exactly the first command. -/
theorem c5_amended_thm :
    (∀ (m : ℚ) (l1 l2 : List Cmd) (a b : Cmd), b.gripper ≠ a.gripper →
        b ∈ filter_minimal_movement (l1 ++ a :: b :: l2) m) ∧
    (∀ (c0 : Cmd) (cs : List Cmd), (∀ c ∈ cs, distSq c0 c < 2 ^ 2) →
        (∀ c ∈ cs, c.gripper = c0.gripper) →
        filter_minimal_movement (c0 :: cs) 2 = [c0]) := by
  constructor
  · intro m l1 l2 a b hne
    rw [filter_eq_walkGe]
    cases l1 with
    | nil =>
      simp only [List.nil_append, filterSpecGe, filterWalk,
        keepCmd_of_gripper_ne m hne, if_pos]
      simp
    | cons x l1 =>
      simp only [List.cons_append, filterSpecGe]
      exact List.mem_cons_of_mem _
        (mem_filterWalk_of_gripper_ne m l1 x a b l2 hne)
  · intro c0 cs hd hg
    rw [filter_eq_walkGe]
    simp only [filterSpecGe, filterWalk_nil_of_close c0 cs hd hg]

/-- C5 amended, witnessed at concrete inputs: a gripper change two
commands in is retained, and a 1 mm drift with constant gripper collapses
to the first command. -/
theorem c5_amended_witness :
    ((cmdAt 5 1).gripper ≠ (cmdAt 0 0).gripper ∧
      cmdAt 5 1 ∈
        filter_minimal_movement ([] ++ cmdAt 0 0 :: cmdAt 5 1 :: []) 3) ∧
    ((∀ c ∈ [cmdAt 1 0], distSq (cmdAt 0 0) c < 2 ^ 2) ∧
      (∀ c ∈ [cmdAt 1 0], c.gripper = (cmdAt 0 0).gripper) ∧
      filter_minimal_movement (cmdAt 0 0 :: [cmdAt 1 0]) 2 = [cmdAt 0 0]) := by
  refine ⟨⟨by decide,
      c5_amended_thm.1 3 [] [] (cmdAt 0 0) (cmdAt 5 1) (by decide)⟩,
    ⟨by decide, by decide,
      c5_amended_thm.2 (cmdAt 0 0) [cmdAt 1 0] (by decide) (by decide)⟩⟩

theorem sum_map_eq_of_const (f : Cmd → ℚ) (v : ℚ) :
    ∀ l : List Cmd, (∀ c ∈ l, f c = v) → (l.map f).sum = l.length * v := by
  intro l
  induction l with
  | nil => simp
  | cons c cs ih =>
    intro h
    simp only [List.map_cons, List.sum_cons, List.length_cons, h c (by simp),
      ih fun d hd => h d (by simp [hd])]
    push_cast
    ring

/-- C10: a command list shorter than the window size is returned by
smooth_commands completely unchanged (the length guard short-circuits
before any averaging or rounding), so length-0, 1 and 2 inputs pass
through the default window-3 smoother as-is. -/
theorem c10_short_input_passthrough (commands : List Cmd)
    (window_size : ℕ) (h : commands.length < window_size) :
    smooth_commands commands window_size = commands := by
  simp [smooth_commands, h]

/-- C10 witnessed on a two-command list with the default window 3. -/
theorem c10_witness :
    [cmdAt 0 0, cmdAt 50 1].length < 3 ∧
    smooth_commands [cmdAt 0 0, cmdAt 50 1] 3 = [cmdAt 0 0, cmdAt 50 1] :=
  ⟨by decide, c10_short_input_passthrough [cmdAt 0 0, cmdAt 50 1] 3 (by decide)⟩

/-- C9: smoothing a constant sequence is NOT the identity: the smoother
rounds to two decimals, so a constant x-coordinate of 0.001 comes back as
0.0 once the list reaches the window size. -/
theorem c9_counterexample :
    (List.replicate 3 milCmd).map Cmd.x = [1 / 1000, 1 / 1000, 1 / 1000] ∧
    (smooth_commands (List.replicate 3 milCmd) 3).map Cmd.x = [0, 0, 0] := by
  refine ⟨by decide, by decide⟩

/-- C9 amended: smoothing a constant sequence whose coordinates are exact
two-decimal values (round2 fixes them — true of every command the
Converter itself emits) returns the sequence unchanged, for every window
size. -/
theorem c9_amended_thm (commands : List Cmd) (window_size : ℕ) (x y z : ℚ)
    (hx : round2 x = x) (hy : round2 y = y) (hz : round2 z = z)
    (hc : ∀ c ∈ commands, c.x = x ∧ c.y = y ∧ c.z = z) :
    smooth_commands commands window_size = commands := by
  unfold smooth_commands
  by_cases hlen : commands.length < window_size
  · rw [if_pos hlen]
  · rw [if_neg hlen]
    apply List.ext_getElem
    · simp
    · intro i h1 h2
      have hi : i < commands.length := by simpa using h1
      simp only [List.getElem_map, List.getElem_range]
      have hwlen : 0 <
          ((commands.drop (i - window_size / 2)).take
            (min commands.length (i + window_size / 2 + 1) -
              (i - window_size / 2))).length := by
        simp only [List.length_take, List.length_drop]
        omega
      have hne : (((commands.drop (i - window_size / 2)).take
          (min commands.length (i + window_size / 2 + 1) -
            (i - window_size / 2))).length : ℚ) ≠ 0 :=
        Nat.cast_ne_zero.mpr hwlen.ne'
      have hwin : ∀ c ∈ (commands.drop (i - window_size / 2)).take
          (min commands.length (i + window_size / 2 + 1) -
            (i - window_size / 2)), c.x = x ∧ c.y = y ∧ c.z = z :=
        fun c hmem =>
          hc c (List.mem_of_mem_drop (List.mem_of_mem_take hmem))
      have havgx := sum_map_eq_of_const Cmd.x x _ fun c hm => (hwin c hm).1
      have havgy := sum_map_eq_of_const Cmd.y y _ fun c hm => (hwin c hm).2.1
      have havgz := sum_map_eq_of_const Cmd.z z _ fun c hm => (hwin c hm).2.2
      have hgd : commands.getD i defaultCmd = commands[i] :=
        List.getD_eq_getElem commands defaultCmd hi
      have hcx := (hc commands[i] (commands.getElem_mem hi)).1
      have hcy := (hc commands[i] (commands.getElem_mem hi)).2.1
      have hcz := (hc commands[i] (commands.getElem_mem hi)).2.2
      simp only [havgx, havgy, havgz, mul_div_cancel_left₀ _ hne, hx, hy, hz,
        hgd, hcx, hcy, hcz]
      rw [← hcx, ← hcy, ← hcz]

/-- C9 amended, witnessed on a constant three-command sequence whose
coordinates (0, 0, 0) are exact two-decimal values. -/
theorem c9_amended_witness :
    round2 0 = 0 ∧
    (∀ c ∈ List.replicate 3 (cmdAt 0 0),
      c.x = 0 ∧ c.y = 0 ∧ c.z = 0) ∧
    smooth_commands (List.replicate 3 (cmdAt 0 0)) 3 =
      List.replicate 3 (cmdAt 0 0) :=
  ⟨by decide, by decide,
    c9_amended_thm (List.replicate 3 (cmdAt 0 0)) 3 0 0 0 (by decide)
      (by decide) (by decide) (by decide)⟩

theorem pstep_executed_inv (beh : ℕ → CmdBehavior) (s : PState) (e : PEvent)
    (h : s.executed = List.range s.idx) :
    (pstep beh s e).executed = List.range (pstep beh s e).idx := by
  cases e with
  | pause => simpa [pstep] using h
  | resume => simpa [pstep] using h
  | stop => simpa [pstep] using h
  | tick =>
    simp only [pstep]
    split_ifs <;> simp [h, List.range_succ]

theorem foldl_pstep_inv (beh : ℕ → CmdBehavior) :
    ∀ (evs : List PEvent) (s : PState), s.executed = List.range s.idx →
      (evs.foldl (pstep beh) s).executed =
        List.range (evs.foldl (pstep beh) s).idx := by
  intro evs
  induction evs with
  | nil => intro s h; exact h
  | cons e evs ih =>
    intro s h
    exact ih (pstep beh s e) (pstep_executed_inv beh s e h)

theorem runPlay_ticks (beh : ℕ → CmdBehavior) (cmds : List Cmd) :
    ∀ i : ℕ, i ≤ cmds.length →
      (∀ j, j < i → execute_command (beh j) = true) →
      runPlay beh cmds (List.replicate i .tick) =
        ⟨cmds, i, false, true, List.range i, none, 1, true⟩ := by
  intro i
  induction i with
  | zero => intro _ _; rfl
  | succ i ih =>
    intro hle hok
    have hsplit : List.replicate (i + 1) PEvent.tick =
        List.replicate i PEvent.tick ++ [PEvent.tick] :=
      List.replicate_succ' i PEvent.tick
    have hprev := ih (by omega) fun j hj => hok j (by omega)
    unfold runPlay at hprev ⊢
    rw [hsplit, List.foldl_append, hprev]
    simp [pstep, hok i (by omega), Nat.lt_of_succ_le hle, List.range_succ]

/-- C2: a gripper actuator error does NOT fault the play loop.  With an
actuator whose gripper raises in both call shapes on every command,
executing a command still reports success, and playing a two-command
sequence to completion returns success with both commands executed — the
claim that gripper I/O errors make the play invocation fail and halt is
false on the code. -/
theorem c2_counterexample :
    (behGripFail 0).grip = .errThenErr ∧ (behGripFail 1).grip = .errThenErr ∧
    execute_command ⟨.ok, .errThenErr⟩ = true ∧
    (runPlay behGripFail [cmdAt 0 0, cmdAt 50 1]
      [.tick, .tick, .tick]).result = some true ∧
    (runPlay behGripFail [cmdAt 0 0, cmdAt 50 1]
      [.tick, .tick, .tick]).executed = [0, 1] := by
  refine ⟨rfl, rfl, by decide, by decide, by decide⟩

/-- C2 amended: only MOVE failures fault the loop.  A command whose move
succeeds reports success whatever the gripper outcome (gripper errors are
logged as warnings and swallowed); when command i is the first whose move
fails, the play loop executes exactly commands 0..i-1, halts with a
failure result and is_playing cleared, and a returned loop never
advances again. -/
theorem c2_amended_thm (beh : ℕ → CmdBehavior) (cmds : List Cmd) (i : ℕ)
    (hi : i < cmds.length)
    (hok : ∀ j, j < i → execute_command (beh j) = true)
    (hfail : execute_command (beh i) = false) :
    (∀ g, execute_command ⟨.ok, g⟩ = true) ∧
    (∀ g, execute_command ⟨.typeErrThenOk, g⟩ = true) ∧
    runPlay beh cmds (List.replicate (i + 1) .tick) =
      ⟨cmds, i, false, false, List.range i, some false, 1, true⟩ ∧
    (∀ s : PState, s.result.isSome = true → pstep beh s .tick = s) := by
  refine ⟨fun g => by cases g <;> rfl, fun g => by cases g <;> rfl, ?_,
    fun s h => by simp [pstep, h]⟩
  have hsplit : List.replicate (i + 1) PEvent.tick =
      List.replicate i PEvent.tick ++ [PEvent.tick] :=
    List.replicate_succ' i PEvent.tick
  have hprev := runPlay_ticks beh cmds i (le_of_lt hi) hok
  unfold runPlay at hprev ⊢
  rw [hsplit, List.foldl_append, hprev]
  simp [pstep, hi, hfail]

/-- C2 amended, witnessed: with a healthy first command and a move I/O
error on the second, two loop iterations execute only command 0 and halt
with a failure result. -/
theorem c2_amended_witness :
    1 < ([cmdAt 0 0, cmdAt 50 1] : List Cmd).length ∧
    execute_command (behMoveFail 1) = false ∧
    runPlay behMoveFail [cmdAt 0 0, cmdAt 50 1] (List.replicate 2 .tick) =
      ⟨[cmdAt 0 0, cmdAt 50 1], 1, false, false, List.range 1,
        some false, 1, true⟩ := by
  refine ⟨by decide, by decide, ?_⟩
  exact (c2_amended_thm behMoveFail [cmdAt 0 0, cmdAt 50 1] 1 (by decide)
    (by decide) (by decide)).2.2.1

/-- C8: pause only sets the is_paused flag — the index, loaded commands,
executed trace, homing count and connection are untouched; while paused
(and playing, with the loop not yet returned) a loop iteration is a
no-op, so no command starts; resume only clears the flag, keeping the
index, executed trace and homing count, and the next successful
iteration after resuming executes exactly the command at the paused
index without re-homing; and along every event schedule the executed
trace equals range(idx) — every command up to the current index executed
exactly once, in order, none replayed. -/
theorem c8_pause_resume_semantics (beh : ℕ → CmdBehavior)
    (cmds : List Cmd) (evs : List PEvent) :
    ((pstep beh (runPlay beh cmds evs) .pause).paused = true ∧
      (pstep beh (runPlay beh cmds evs) .pause).idx =
        (runPlay beh cmds evs).idx ∧
      (pstep beh (runPlay beh cmds evs) .pause).cmds =
        (runPlay beh cmds evs).cmds ∧
      (pstep beh (runPlay beh cmds evs) .pause).executed =
        (runPlay beh cmds evs).executed ∧
      (pstep beh (runPlay beh cmds evs) .pause).homings =
        (runPlay beh cmds evs).homings ∧
      (pstep beh (runPlay beh cmds evs) .pause).connected =
        (runPlay beh cmds evs).connected) ∧
    ((runPlay beh cmds evs).paused = true →
      (runPlay beh cmds evs).playing = true →
      (runPlay beh cmds evs).result = none →
      pstep beh (runPlay beh cmds evs) .tick = runPlay beh cmds evs) ∧
    ((pstep beh (runPlay beh cmds evs) .resume).paused = false ∧
      (pstep beh (runPlay beh cmds evs) .resume).idx =
        (runPlay beh cmds evs).idx ∧
      (pstep beh (runPlay beh cmds evs) .resume).executed =
        (runPlay beh cmds evs).executed ∧
      (pstep beh (runPlay beh cmds evs) .resume).homings =
        (runPlay beh cmds evs).homings) ∧
    ((runPlay beh cmds evs).result = none →
      (runPlay beh cmds evs).playing = true →
      (runPlay beh cmds evs).paused = false →
      (runPlay beh cmds evs).idx < (runPlay beh cmds evs).cmds.length →
      execute_command (beh (runPlay beh cmds evs).idx) = true →
      (pstep beh (runPlay beh cmds evs) .tick).executed =
        (runPlay beh cmds evs).executed ++ [(runPlay beh cmds evs).idx] ∧
      (pstep beh (runPlay beh cmds evs) .tick).idx =
        (runPlay beh cmds evs).idx + 1 ∧
      (pstep beh (runPlay beh cmds evs) .tick).homings =
        (runPlay beh cmds evs).homings) ∧
    (runPlay beh cmds evs).executed =
      List.range (runPlay beh cmds evs).idx := by
  refine ⟨⟨rfl, rfl, rfl, rfl, rfl, rfl⟩, ?_, ⟨rfl, rfl, rfl, rfl⟩, ?_, ?_⟩
  · intro h1 h2 h3
    simp [pstep, h1, h2, h3]
  · intro h1 h2 h3 h4 h5
    refine ⟨?_, ?_, ?_⟩ <;> simp [pstep, h1, h2, h3, h4, h5]
  · exact foldl_pstep_inv beh evs (playStart cmds) rfl

/-- C8 witnessed: after executing one command, pausing and resuming, the
next iteration executes exactly the command at the paused index (index
1), with the executed trace still range(idx). -/
theorem c8_witness :
    (runPlay behOk [cmdAt 0 0, cmdAt 50 1]
      [.tick, .pause, .resume]).paused = false ∧
    (runPlay behOk [cmdAt 0 0, cmdAt 50 1]
      [.tick, .pause, .resume]).idx = 1 ∧
    ((pstep behOk (runPlay behOk [cmdAt 0 0, cmdAt 50 1]
        [.tick, .pause, .resume]) .tick).executed =
      (runPlay behOk [cmdAt 0 0, cmdAt 50 1]
        [.tick, .pause, .resume]).executed ++
        [(runPlay behOk [cmdAt 0 0, cmdAt 50 1]
          [.tick, .pause, .resume]).idx] ∧
      (pstep behOk (runPlay behOk [cmdAt 0 0, cmdAt 50 1]
        [.tick, .pause, .resume]) .tick).idx =
        (runPlay behOk [cmdAt 0 0, cmdAt 50 1]
          [.tick, .pause, .resume]).idx + 1 ∧
      (pstep behOk (runPlay behOk [cmdAt 0 0, cmdAt 50 1]
        [.tick, .pause, .resume]) .tick).homings =
        (runPlay behOk [cmdAt 0 0, cmdAt 50 1]
          [.tick, .pause, .resume]).homings) ∧
    (runPlay behOk [cmdAt 0 0, cmdAt 50 1]
      [.tick, .pause, .resume]).executed =
      List.range (runPlay behOk [cmdAt 0 0, cmdAt 50 1]
        [.tick, .pause, .resume]).idx := by
  refine ⟨by decide, by decide, ?_, ?_⟩
  · exact (c8_pause_resume_semantics behOk [cmdAt 0 0, cmdAt 50 1]
      [.tick, .pause, .resume]).2.2.2.1 (by decide) (by decide) (by decide)
      (by decide) (by decide)
  · exact (c8_pause_resume_semantics behOk [cmdAt 0 0, cmdAt 50 1]
      [.tick, .pause, .resume]).2.2.2.2

theorem interp_left {x a b y0 y1 : ℚ} (h : x ≤ a) :
    interp x a b y0 y1 = y0 := by
  simp [interp, h]

theorem interp_right {x a b y0 y1 : ℚ} (hab : a < b) (h : b ≤ x) :
    interp x a b y0 y1 = y1 := by
  have h1 : ¬ x ≤ a := by linarith
  simp [interp, h1, h]

theorem interp_mid_mono_aux (a b y0 y1 u v : ℚ) (hba : 0 < b - a)
    (hy : y1 - y0 ≤ 0) (huv : u ≤ v) :
    y0 + (v - a) * (y1 - y0) / (b - a) ≤
      y0 + (u - a) * (y1 - y0) / (b - a) := by
  have h1 : (v - a) * (y1 - y0) ≤ (u - a) * (y1 - y0) :=
    mul_le_mul_of_nonpos_right (by linarith) hy
  have h2 : (v - a) * (y1 - y0) / (b - a) ≤ (u - a) * (y1 - y0) / (b - a) :=
    (div_le_div_iff_of_pos_right hba).mpr h1
  linarith

theorem interp_ge_right (a b y0 y1 x : ℚ) (hab : a < b) (hy : y1 ≤ y0) :
    y1 ≤ interp x a b y0 y1 := by
  unfold interp
  have hba : (0:ℚ) < b - a := by linarith
  split_ifs with h1 h2
  · linarith
  · linarith
  · have hc : (b - a) * (y1 - y0) / (b - a) = y1 - y0 :=
      mul_div_cancel_left₀ _ (by linarith)
    have h3 := interp_mid_mono_aux a b y0 y1 x b hba (by linarith)
      (by linarith)
    linarith

theorem interp_le_left_val (a b y0 y1 x : ℚ) (hab : a < b) (hy : y1 ≤ y0) :
    interp x a b y0 y1 ≤ y0 := by
  unfold interp
  have hba : (0:ℚ) < b - a := by linarith
  split_ifs with h1 h2
  · linarith
  · linarith
  · have h0 : (a - a) * (y1 - y0) / (b - a) = 0 := by
      rw [sub_self, zero_mul, zero_div]
    have h3 := interp_mid_mono_aux a b y0 y1 a x hba (by linarith)
      (by linarith)
    linarith

theorem interp_anti (a b y0 y1 x1 x2 : ℚ) (hab : a < b) (hy : y1 ≤ y0)
    (h12 : x1 ≤ x2) :
    interp x2 a b y0 y1 ≤ interp x1 a b y0 y1 := by
  have hba : (0:ℚ) < b - a := by linarith
  by_cases h2a : x2 ≤ a
  · rw [interp_left h2a, interp_left (le_trans h12 h2a)]
  · by_cases h2b : b ≤ x2
    · rw [interp_right hab h2b]
      exact interp_ge_right a b y0 y1 x1 hab hy
    · have hmid2 : interp x2 a b y0 y1 =
          y0 + (x2 - a) * (y1 - y0) / (b - a) := by
        simp [interp, h2a, h2b]
      by_cases h1a : x1 ≤ a
      · rw [hmid2, interp_left h1a]
        have h3 := interp_mid_mono_aux a b y0 y1 a x2 hba (by linarith)
          (by linarith)
        have h0 : (a - a) * (y1 - y0) / (b - a) = 0 := by
          rw [sub_self, zero_mul, zero_div]
        linarith
      · have h1b : ¬ b ≤ x1 := fun hb => h2b (le_trans hb h12)
        have hmid1 : interp x1 a b y0 y1 =
            y0 + (x1 - a) * (y1 - y0) / (b - a) := by
          simp [interp, h1a, h1b]
        rw [hmid1, hmid2]
        exact interp_mid_mono_aux a b y0 y1 x1 x2 hba (by linarith) h12

theorem clampQ_mono (lo hi u v : ℚ) (h : u ≤ v) :
    clampQ lo hi u ≤ clampQ lo hi v :=
  max_le_max le_rfl (min_le_min le_rfl h)

theorem clampQ_top (lo hi : ℚ) (h : lo ≤ hi) : clampQ lo hi hi = hi := by
  simp [clampQ, max_eq_right h]

theorem clampQ_bot (lo hi : ℚ) (h : lo ≤ hi) : clampQ lo hi lo = lo := by
  simp [clampQ, min_eq_right h]

/-- C6: the span-to-robot-x mapping clamps and is antitone, in both the
batch Converter and the live per-frame mapping: spans ≤ 0.08 map to
x_max, spans ≥ 0.25 map to x_min, and on [0.08, 0.25] the mapped value is
monotonically non-increasing in the span. -/
theorem c6_span_mapping (conv : Conv) (h : conv.x_min ≤ conv.x_max) :
    (∀ s : ℚ, s ≤ 8 / 100 →
      robot_x_of_span conv s = conv.x_max ∧
      live_robot_x_of_span conv s = conv.x_max) ∧
    (∀ s : ℚ, 25 / 100 ≤ s →
      robot_x_of_span conv s = conv.x_min ∧
      live_robot_x_of_span conv s = conv.x_min) ∧
    (∀ s1 s2 : ℚ, 8 / 100 ≤ s1 → s1 ≤ s2 → s2 ≤ 25 / 100 →
      robot_x_of_span conv s2 ≤ robot_x_of_span conv s1 ∧
      live_robot_x_of_span conv s2 ≤ live_robot_x_of_span conv s1) := by
  have hab : (8:ℚ) / 100 < 25 / 100 := by norm_num
  refine ⟨fun s hs => ⟨?_, ?_⟩, fun s hs => ⟨?_, ?_⟩,
    fun s1 s2 hs1 h12 hs2 => ⟨?_, ?_⟩⟩
  · exact interp_left hs
  · unfold live_robot_x_of_span
    rw [interp_left hs]
    exact clampQ_top _ _ h
  · exact interp_right hab hs
  · unfold live_robot_x_of_span
    rw [interp_right hab hs]
    exact clampQ_bot _ _ h
  · exact interp_anti _ _ _ _ s1 s2 hab h h12
  · exact clampQ_mono _ _ _ _ (interp_anti _ _ _ _ s1 s2 hab h h12)

/-- C6 witnessed on the default workspace at concrete spans. -/
theorem c6_witness :
    defaultConv.x_min ≤ defaultConv.x_max ∧
    robot_x_of_span defaultConv (5 / 100) = defaultConv.x_max ∧
    live_robot_x_of_span defaultConv (3 / 10) = defaultConv.x_min ∧
    robot_x_of_span defaultConv (2 / 10) ≤
      robot_x_of_span defaultConv (1 / 10) :=
  ⟨by decide,
    ((c6_span_mapping defaultConv (by decide)).1 (5 / 100) (by decide)).1,
    ((c6_span_mapping defaultConv (by decide)).2.1 (3 / 10) (by decide)).2,
    ((c6_span_mapping defaultConv (by decide)).2.2 (1 / 10) (2 / 10)
      (by decide) (by decide) (by decide)).1⟩

/-- C7: the persisted command file round-trips losslessly: loading what
save_commands wrote returns exactly the encoded command list, and every
numeric field (frame, timestamp, x, y, z, r, gripper, confidence) reads
back equal to the value that was written. -/
theorem c7_roundtrip (conv : Conv) (generated_at : ℚ) (cmds : List Cmd)
    (c : Cmd) :
    load_commands (save_commands conv generated_at cmds) =
      some (cmds.map encodeCmd) ∧
    decodeCmd (encodeCmd c) = some c := by
  constructor
  · simp [load_commands, save_commands, lookupField, kMetadata, kCommands]
  · cases c
    simp [decodeCmd, encodeCmd, lookupField, kFrame, kTimestamp, kX, kY,
      kZ, kR, kGripper, kConfidence]

end Ego
